import Mathlib

/-! Shallow embedding of `openconfig_pyang/plugins/util/rst_emitter.py`, an RST
documentation emitter for YANG modules, together with theorems checking the
natural-language specification of the file against the code.

Python dictionaries are modelled as insertion-ordered association lists
(`List (String × key)`); `d[k]` is the fallible `dget`, `d[k] = v` is `dset`
(which overwrites in place, preserving position, or appends a new entry), and
`k in d` is `dcontains`.  A `KeyError` raised by a method is modelled by an
`Except` result whose error payload carries the `moduledocs` mapping as it
stood when the exception was raised.
-/

namespace RstEmitterModel

/-- Source function `h(content, symbol)`, i.e. the content, a newline, the
symbol repeated `len(content)` times, and a newline. -/
def h (content symbol : String) : String :=
  content ++ "\n" ++ (String.join (List.replicate content.length symbol)) ++ "\n"

/-- Source function `h1`. -/
def h1 (content : String) : String := h content "#"

/-- Source function `h2`. -/
def h2 (content : String) : String := h content "*"

/-- Source function `h3`. -/
def h3 (content : String) : String := h content "="

/-- Source function `h4`. -/
def h4 (content : String) : String := h content "-"

/-- Source function `h5`. -/
def h5 (content : String) : String := h content "^"

/-- Source function `h6`. -/
def h6 (content : String) : String := h content "\""

/-- Source function `b`: bold wrapping. -/
def b (content : String) : String := "**" ++ content ++ "**"

/-- Source function `i`: italic wrapping. -/
def i (content : String) : String := "*" ++ content ++ "*"

/-- Source function `c`: double-backtick code wrapping. -/
def c (content : String) : String := "``" ++ content ++ "``"

/-- Source function `block`: the content framed by a leading newline and a
trailing blank line. -/
def block (content : String) : String := "\n" ++ content ++ "\n\n"

/-- Source function `newline()`. -/
def newline : String := "\n"

/-- Source function `separator()`. -/
def separator : String := "\n\n-----\n\n"

/-! Python dict model. -/

/-- Fallible dictionary lookup `d[k]` (first entry with the given key). -/
def dget {α : Type} (d : List (String × α)) (k : String) : Option α :=
  match d with
  | [] => none
  | (k', v) :: rest => if k' == k then some v else dget rest k

/-- Dictionary assignment `d[k] = v`: overwrite in place keeping the entry's
position, or append a fresh entry at the end (Python insertion order). -/
def dset {α : Type} (d : List (String × α)) (k : String) (v : α) :
    List (String × α) :=
  match d with
  | [] => [(k, v)]
  | (k', v') :: rest =>
    if k' == k then (k, v) :: rest else (k', v') :: dset rest k v

/-- Iteration order of the dictionary's keys. -/
def dkeys {α : Type} (d : List (String × α)) : List String := d.map Prod.fst

/-- Python `k in d` membership test. -/
def dcontains {α : Type} (d : List (String × α)) (k : String) : Bool :=
  (dget d k).isSome

/-! Data model of the pre-built YANG documentation tree.  The emitter receives an already-annotated tree from the toolchain.  `attrs`
dictionaries are modelled as a record of optional fields, one per key the
emitter ever reads; an absent key is `none` and indexing it raises
`KeyError`. -/

/-- The attribute dictionary of a node, typedef, identity or type document. -/
structure Attrs where
  desc : Option String
  path : Option String
  is_key : Option Bool
  base : Option String
  leafref_path : Option String
  enums : Option (List (String × String))
  restrictions : Option (List (String × String))
deriving Repr, DecidableEq

/-- An `attrs` dictionary with no keys set. -/
def Attrs.empty : Attrs :=
  ⟨none, none, none, none, none, none, none⟩

/-- A type document: `typename`, its `attrs`, and `childtypes` (non-empty only
for unions). -/
inductive TypeDoc where
  | mk (typename : String) (attrs : Attrs) (childtypes : List TypeDoc)

/-- Accessor for `typedoc.typename`. -/
def TypeDoc.typename : TypeDoc → String
  | .mk t _ _ => t

/-- Accessor for `typedoc.attrs`. -/
def TypeDoc.attrs : TypeDoc → Attrs
  | .mk _ a _ => a

/-- Accessor for `typedoc.childtypes`. -/
def TypeDoc.childtypes : TypeDoc → List TypeDoc
  | .mk _ _ cs => cs

/-- A typedef entry of a module: its `attrs` and its `typedoc`. -/
structure Typedef where
  attrs : Attrs
  typedoc : TypeDoc

/-- An identity entry of a module. -/
structure Identity where
  attrs : Attrs
deriving Repr, DecidableEq

/-- The `module_doc` back-reference carried by each statement; the emitter only
reads its `module_name`. -/
structure ModuleDocRef where
  module_name : String
deriving Repr, DecidableEq

/-- A YANG statement node as seen by `genStatementDoc`: its `keyword`, its
`attrs`, its optional `typedoc`, and its `module_doc` back-reference. -/
structure StatementNode where
  keyword : String
  attrs : Attrs
  typedoc : Option TypeDoc
  module_doc : ModuleDocRef

/-- The `mod.module` object: the emitter reads its `attrs` and its
`children`. -/
structure ModuleStatement where
  attrs : Attrs
  children : List StatementNode

/-- A module documentation object `mod` as consumed by `genModuleDoc`. -/
structure ModuleDoc where
  module_name : String
  module : ModuleStatement
  typedefs : List (String × Typedef)
  identities : List (String × Identity)
  base_identities : List String

/-- Plugin options: the emitter reads `strip_namespace` and `doc_title`. -/
structure Opts where
  strip_namespace : Bool
  doc_title : Option String
deriving Repr, DecidableEq

/-- The pyang context object; the emitter only reads `ctx.opts`. -/
structure Ctx where
  opts : Opts
deriving Repr, DecidableEq

/-- The emitter's state.  `moduledocs` (module name → accumulated text) and the
`path_only` keyword list are attributes supplied by the `DocEmitter` base
class, whose file is not part of the sources; the methods under verification
read `path_only` and read/write `moduledocs`, so both are modelled here. -/
structure RSTEmitter where
  moduledocs : List (String × String)
  path_only : List String
deriving Repr, DecidableEq

/-! Embedding of `gen_type_info`.  `YangDocDefs.integer_types` lives in `yangdoc_defs.py`, which is not among the
sources; the set is kept abstract as an explicit parameter `it` and every
theorem holds for all values of it. -/

mutual

/-- Source function `gen_type_info(typedoc, is_union)`.  `none` models a
`KeyError` on a missing `attrs` key. -/
def gen_type_info (it : List String) : TypeDoc → Bool → Option String
  | .mk typename attrs childtypes, is_union =>
    let bPfx := if is_union then "*  " else ""
    let pfx := if is_union then "  " else ""
    let s := block (bPfx ++ b "Type" ++ ": " ++ c typename)
    if typename == "enumeration" then
      match attrs.enums with
      | none => none
      | some enums =>
        some (s ++ String.join (enums.map (fun p =>
          block (pfx ++ "* " ++ c p.1 ++ ": " ++ p.2))))
    else if typename == "string" then
      match attrs.restrictions with
      | none => none
      | some restr =>
        match dget restr "pattern" with
        | some pat => some (s ++ block (pfx ++ "* " ++ b "pattern" ++ ": " ++ c pat))
        | none => some s
    else if it.contains typename then
      match attrs.restrictions with
      | none => none
      | some restr =>
        match dget restr "range" with
        | some rng => some (s ++ block (pfx ++ "* " ++ b "range" ++ ": " ++ c rng))
        | none => some s
    else if typename == "identityref" then
      match attrs.base with
      | none => none
      | some bse => some (s ++ block (pfx ++ "* " ++ b "base" ++ ": " ++ c bse))
    else if typename == "leafref" then
      match attrs.leafref_path with
      | none => none
      | some lp =>
        some (s ++ block (pfx ++ "* " ++ b "path reference" ++ ": " ++ c lp))
    else if typename == "union" then
      match gen_type_info_list it childtypes with
      | none => none
      | some rest => some (s ++ rest)
    else
      some s

/-- The union loop of `gen_type_info`: concatenate
`gen_type_info(childtype, is_union=True)` over the child types, propagating a
`KeyError` from any child. -/
def gen_type_info_list (it : List String) : List TypeDoc → Option String
  | [] => some ""
  | t :: rest =>
    match gen_type_info it t true, gen_type_info_list it rest with
    | some sa, some sb => some (sa ++ sb)
    | _, _ => none

end

/-! Embedding of `genModuleDoc`. -/

/-- One iteration of the typedef loop of `genModuleDoc` (body of
`for typename, td in mod.typedefs.items()`). -/
def typedefEntry (it : List String) (typename : String) (td : Typedef) :
    Option String :=
  let s := h4 typename
    ++ block (td.attrs.desc.getD "")
    ++ block (b "type" ++ ": " ++ c td.typedoc.typename)
  let s := s ++ String.join ((td.typedoc.attrs.enums.getD []).map (fun p =>
    block ("* " ++ c p.1 ++ ": " ++ p.2)))
  let s := s ++
    (match td.typedoc.attrs.restrictions with
     | some restr =>
       if restr.isEmpty then ""
       else String.join (restr.map (fun p => block (b p.1 ++ ": " ++ c p.2)))
     | none => "")
  if td.typedoc.typename == "union" then
    match gen_type_info_list it td.typedoc.childtypes with
    | none => none
    | some u => some (s ++ u)
  else some s

/-- The whole typedef loop of `genModuleDoc`. -/
def typedefsList (it : List String) : List (String × Typedef) → Option String
  | [] => some ""
  | (tn, td) :: rest =>
    match typedefEntry it tn td, typedefsList it rest with
    | some sa, some sb => some (sa ++ sb)
    | _, _ => none

/-- The `if len(mod.typedefs) > 0` block of `genModuleDoc`. -/
def typedefsSection (it : List String) (tds : List (String × Typedef)) :
    Option String :=
  if tds.length > 0 then
    match typedefsList it tds with
    | none => none
    | some body => some (h3 "Types" ++ body)
  else some ""

/-- The `derived` dict comprehension of `genModuleDoc`: the entries of
`mod.identities` whose `attrs["base"]` equals `base_id`; `none` models the
`KeyError` raised when some identity lacks a `"base"` attribute. -/
def derivedList (identities : List (String × Identity)) (base_id : String) :
    Option (List (String × Identity)) :=
  match identities with
  | [] => some []
  | (k, v) :: rest =>
    match v.attrs.base with
    | none => none
    | some bs =>
      match derivedList rest base_id with
      | none => none
      | some tail => some (if bs == base_id then (k, v) :: tail else tail)

/-- One iteration of the derived-identity loop (body of
`for idname, id in derived.items()`). -/
def derivedEntry (idname : String) (idv : Identity) : Option String :=
  match idv.attrs.base, idv.attrs.desc with
  | some bs, some d =>
    some (h4 idname ++ block (b "base identity" ++ ": " ++ bs) ++ block d)
  | _, _ => none

/-- The whole derived-identity loop. -/
def derivedFold : List (String × Identity) → Option String
  | [] => some ""
  | (idname, idv) :: rest =>
    match derivedEntry idname idv, derivedFold rest with
    | some sa, some sb => some (sa ++ sb)
    | _, _ => none

/-- One iteration of the base-identity loop of `genModuleDoc` (body of
`for base_id in mod.base_identities`). -/
def baseIdentityBlock (identities : List (String × Identity))
    (base_id : String) : Option String :=
  match dget identities base_id with
  | none => none
  | some bobj =>
    match bobj.attrs.desc with
    | none => none
    | some d =>
      match derivedList identities base_id with
      | none => none
      | some derived =>
        match derivedFold derived with
        | none => none
        | some dtxt => some (h4 ("base: " ++ i base_id) ++ block d ++ dtxt)

/-- The whole base-identity loop. -/
def basesFold (identities : List (String × Identity)) :
    List String → Option String
  | [] => some ""
  | base_id :: rest =>
    match baseIdentityBlock identities base_id, basesFold identities rest with
    | some sa, some sb => some (sa ++ sb)
    | _, _ => none

/-- The `if len(mod.identities) > 0` block of `genModuleDoc`. -/
def identitiesSection (identities : List (String × Identity))
    (base_identities : List String) : Option String :=
  if identities.length > 0 then
    match basesFold identities base_identities with
    | none => none
    | some body => some (h3 "Identities" ++ body)
  else some ""

/-- The string `s` accumulated by `genModuleDoc` before the final
`self.moduledocs[mod.module_name] = s`. -/
def genModuleFragment (it : List String) (mod : ModuleDoc) : Option String :=
  let s := h1 mod.module_name ++ block (mod.module.attrs.desc.getD "")
  match typedefsSection it mod.typedefs with
  | none => none
  | some tsec =>
    match identitiesSection mod.identities mod.base_identities with
    | none => none
    | some isec =>
      some (s ++ tsec ++ isec ++
        (if mod.module.children.length > 0 then h3 "Data nodes" else ""))

/-- Source method `genModuleDoc(self, mod, ctx)`.  On success the new emitter
state has `moduledocs[mod.module_name]` ASSIGNED to the fragment; on a
`KeyError` the error payload is the untouched `moduledocs`. -/
def genModuleDoc (it : List String) (e : RSTEmitter) (mod : ModuleDoc)
    (_ctx : Ctx) : Except (List (String × String)) RSTEmitter :=
  match genModuleFragment it mod with
  | none => Except.error e.moduledocs
  | some s =>
    Except.ok { e with moduledocs := dset e.moduledocs mod.module_name s }

/-! Embedding of `genStatementDoc`.  `yangpath.strip_namespace` lives in `yangpath.py`, which is not among the
sources; it is kept abstract as an explicit parameter `strip_ns` and every
theorem holds for all values of it. -/

/-- The string `s` accumulated by `genStatementDoc` for a non-skipped
statement, up to the final `self.moduledocs[...] += s`. -/
def statementFragment (it : List String) (strip_ns : String → String)
    (statement : StatementNode) (ctx : Ctx) : Option String :=
  match statement.attrs.path with
  | none => none
  | some p =>
    let pathstr := if ctx.opts.strip_namespace then strip_ns p else p
    let s := h4 pathstr
    let s := s ++
      (match statement.attrs.desc with
       | some d => block d
       | none => "")
    match statement.attrs.is_key with
    | none => none
    | some ik =>
      let s := s ++ b "nodetype" ++ ": " ++ c statement.keyword
      let s := if ik then s ++ " (list key)" else s
      let s := s ++ newline
      match statement.typedoc with
      | none => some (s ++ separator)
      | some td =>
        match gen_type_info it td false with
        | none => none
        | some t => some (s ++ t ++ separator)

/-- Source method `genStatementDoc(self, statement, ctx, level=1)`.  The
result carries the Python return value (`some` of the path header for skipped
nodes, `none` otherwise) and the new emitter state; a `KeyError` is an
`Except.error` whose payload is `moduledocs` as it stood at the raise. -/
def genStatementDoc (it : List String) (strip_ns : String → String)
    (e : RSTEmitter) (statement : StatementNode) (ctx : Ctx) (_level : Nat) :
    Except (List (String × String)) (Option String × RSTEmitter) :=
  match statement.attrs.path with
  | none => Except.error e.moduledocs
  | some p =>
    let pathstr := if ctx.opts.strip_namespace then strip_ns p else p
    if e.path_only.contains statement.keyword then
      Except.ok (some (h4 pathstr), e)
    else
      match statementFragment it strip_ns statement ctx with
      | none => Except.error e.moduledocs
      | some s =>
        match dget e.moduledocs statement.module_doc.module_name with
        | none => Except.error e.moduledocs
        | some old =>
          let newdocs :=
            dset e.moduledocs statement.module_doc.module_name (old ++ s)
          Except.ok (none, { e with moduledocs := newdocs })

/-! Embedding of `emitDocs`. -/

/-- Source method `emitDocs(self, ctx, section=None)`: collect each module's
text in `moduledocs` iteration order, then prepend the `h1` title when
`ctx.opts.doc_title` is set and join the texts with a trailing blank line.
The `sect` parameter models `section`, which the body never consults. -/
def emitDocs (e : RSTEmitter) (ctx : Ctx) (_sect : Option String) : String :=
  let docs := (dkeys e.moduledocs).filterMap (fun name => dget e.moduledocs name)
  let s :=
    match ctx.opts.doc_title with
    | none => ""
    | some t => h1 t
  docs.foldl (fun acc d => acc ++ d ++ "\n\n") s

/-- Variant of `emitDocs` paired with the emitter state it leaves behind: the body only
reads `self.moduledocs`, performing no assignment, so the translated post-state
is the input state. -/
def emitDocsFull (e : RSTEmitter) (ctx : Ctx) (sect : Option String) :
    String × RSTEmitter :=
  (emitDocs e ctx sect, e)

/-- Variant of `genModuleDoc` paired with the tree it leaves behind: the body contains
no assignment to `mod` or its substructures, so the translated post-call tree
is the input tree. -/
def genModuleDocWithTree (it : List String) (e : RSTEmitter) (mod : ModuleDoc)
    (ctx : Ctx) : Except (List (String × String)) (RSTEmitter × ModuleDoc) :=
  match genModuleDoc it e mod ctx with
  | Except.error d => Except.error d
  | Except.ok e' => Except.ok (e', mod)

/-- Variant of `genStatementDoc` paired with the statement it leaves behind: the body
contains no assignment to `statement` or its substructures. -/
def genStatementDocWithTree (it : List String) (strip_ns : String → String)
    (e : RSTEmitter) (statement : StatementNode) (ctx : Ctx) (level : Nat) :
    Except (List (String × String))
      (Option String × RSTEmitter × StatementNode) :=
  match genStatementDoc it strip_ns e statement ctx level with
  | Except.error d => Except.error d
  | Except.ok (r, e') => Except.ok (r, e', statement)

/-- Variant of `gen_type_info` paired with the type document it leaves behind:
the body only reads `typedoc`. -/
def gen_type_info_withTree (it : List String) (typedoc : TypeDoc)
    (is_union : Bool) : Option (String × TypeDoc) :=
  match gen_type_info it typedoc is_union with
  | none => none
  | some s => some (s, typedoc)

/-! Specification-side definitions, written from the claims rather than the
source, for the refinement-style claims. -/

/-- Specification-side reading of `emitDocs`: the `h1` of `doc_title` (or
nothing), then, for each module name in `moduledocs` iteration order, that
module's accumulated text followed by a blank line. -/
def emitDocs_spec (e : RSTEmitter) (ctx : Ctx) : String :=
  (match ctx.opts.doc_title with
   | none => ""
   | some t => h1 t) ++
  String.join (e.moduledocs.map (fun p => p.2 ++ "\n\n"))

mutual

/-- Specification-side reading of `gen_type_info`: a block stating the type
name, followed by type-specific restriction lines. -/
def gen_type_info_spec (it : List String) : TypeDoc → Bool → String
  | .mk typename attrs childtypes, is_union =>
    let pfx := if is_union then "  " else ""
    block ((if is_union then "*  " else "") ++ b "Type" ++ ": " ++ c typename) ++
    (if typename == "enumeration" then
      String.join ((attrs.enums.getD []).map (fun p =>
        block (pfx ++ "* " ++ c p.1 ++ ": " ++ p.2)))
    else if typename == "string" then
      match dget (attrs.restrictions.getD []) "pattern" with
      | some pat => block (pfx ++ "* " ++ b "pattern" ++ ": " ++ c pat)
      | none => ""
    else if it.contains typename then
      match dget (attrs.restrictions.getD []) "range" with
      | some rng => block (pfx ++ "* " ++ b "range" ++ ": " ++ c rng)
      | none => ""
    else if typename == "identityref" then
      block (pfx ++ "* " ++ b "base" ++ ": " ++ c (attrs.base.getD ""))
    else if typename == "leafref" then
      block (pfx ++ "* " ++ b "path reference" ++ ": " ++
        c (attrs.leafref_path.getD ""))
    else if typename == "union" then
      gen_type_info_spec_list it childtypes
    else "")

/-- Specification-side reading of the union expansion: the recursive expansion
of every child type, with union-list prefixes. -/
def gen_type_info_spec_list (it : List String) : List TypeDoc → String
  | [] => ""
  | t :: rest => gen_type_info_spec it t true ++ gen_type_info_spec_list it rest

end

/-! Concrete fixtures used by the witness theorems. -/

/-- A concrete stand-in for `YangDocDefs.integer_types`. -/
def itW : List String := ["uint8"]

/-- A concrete stand-in for `yangpath.strip_namespace`. -/
def stripW : String → String := fun s => s

/-- A context with `strip_namespace` off and no `doc_title`. -/
def ctxW : Ctx := ⟨⟨false, none⟩⟩

/-- A context with a `doc_title`. -/
def ctxTitleW : Ctx := ⟨⟨false, some "T"⟩⟩

/-- Attributes of a concrete leaf statement. -/
def attrsStmtW : Attrs :=
  { desc := some "a leaf", path := some "/top/a", is_key := some false,
    base := none, leafref_path := none, enums := none, restrictions := none }

/-- A concrete non-skipped leaf statement of module `m`. -/
def stmtW : StatementNode :=
  { keyword := "leaf", attrs := attrsStmtW, typedoc := none,
    module_doc := ⟨"m"⟩ }

/-- A concrete skipped statement (its keyword is in `path_only`). -/
def stmtSkipW : StatementNode :=
  { keyword := "rpc", attrs := attrsStmtW, typedoc := none,
    module_doc := ⟨"m"⟩ }

/-- An emitter state holding text for modules `m` and `n`, with `path_only`
containing `rpc`. -/
def eW : RSTEmitter := ⟨[("m", "MODTEXT"), ("n", "OTHER")], ["rpc"]⟩

/-- An emitter state with no entry for module `m`. -/
def eNoKeyW : RSTEmitter := ⟨[("n", "OTHER")], ["rpc"]⟩

/-- A concrete empty module named `mm`. -/
def modW : ModuleDoc := ⟨"mm", ⟨Attrs.empty, []⟩, [], [], []⟩

/-- The fragment `genStatementDoc` computes for `stmtW`. -/
def fragW : String := (statementFragment itW stripW stmtW ctxW).getD ""

/-- The fragment `genModuleDoc` computes for `modW`. -/
def fragMW : String := (genModuleFragment itW modW).getD ""

/-- The emitter state after `genStatementDoc` on `eW` and `stmtW`. -/
def eSW : RSTEmitter := ⟨dset eW.moduledocs "m" ("MODTEXT" ++ fragW), ["rpc"]⟩

/-- The emitter state after `genModuleDoc` on `eW` and `modW`. -/
def eMW : RSTEmitter := ⟨dset eW.moduledocs "mm" fragMW, ["rpc"]⟩

/-- A concrete base identity. -/
def idBaseW : Identity :=
  ⟨{ desc := some "base desc", path := none, is_key := none, base := some "",
     leafref_path := none, enums := none, restrictions := none }⟩

/-- A concrete identity derived from `BASE`. -/
def idDerW : Identity :=
  ⟨{ desc := some "derived desc", path := none, is_key := none,
     base := some "BASE", leafref_path := none, enums := none,
     restrictions := none }⟩

/-- A concrete identities dictionary. -/
def identitiesW : List (String × Identity) :=
  [("BASE", idBaseW), ("DER", idDerW)]

/-- The group of identities of `identitiesW` derived from `BASE`. -/
def dsW : List (String × Identity) := [("DER", idDerW)]

/-- The text emitted for the derived group `dsW`. -/
def dtxtW : String := (derivedFold dsW).getD ""

/-- A concrete type document with a plain type. -/
def tdBoolW : TypeDoc := TypeDoc.mk "boolean" Attrs.empty []

/-- The text `gen_type_info` emits for `tdBoolW`. -/
def sBoolW : String := (gen_type_info itW tdBoolW false).getD ""

/-- A concrete enumeration type document. -/
def tdEnumW : TypeDoc :=
  TypeDoc.mk "enumeration"
    { desc := none, path := none, is_key := none, base := none,
      leafref_path := none, enums := some [("UP", "link up")],
      restrictions := none } []

/-- The text `gen_type_info` emits for `tdEnumW`. -/
def outEnumW : String := (gen_type_info itW tdEnumW false).getD ""

/-! Helper lemmas about the dictionary model and string concatenation. -/

/-- Joining a non-empty list of strings peels off the head. -/
theorem strJoin_cons (a : String) (l : List String) :
    String.join (a :: l) = a ++ String.join l := by
  simp [String.join_eq]
  cases a with
  | mk dat => rfl

/-- Reading back the key just assigned by `dset` yields the assigned value. -/
theorem dget_dset_self {α : Type} (d : List (String × α)) (k : String) (v : α) :
    dget (dset d k v) k = some v := by
  induction d with
  | nil => simp [dget, dset]
  | cons hd tl ih =>
    obtain ⟨k', v'⟩ := hd
    by_cases hk : (k' == k) = true
    · simp [dset, hk, dget]
    · simp [dset, hk, dget, ih]

/-- An assignment by `dset` leaves every other key's value unchanged. -/
theorem dget_dset_ne {α : Type} (d : List (String × α)) (k q : String) (v : α)
    (hne : q ≠ k) : dget (dset d k v) q = dget d q := by
  induction d with
  | nil =>
    simp [dget, dset]
    intro hkq
    exact absurd hkq.symm hne
  | cons hd tl ih =>
    obtain ⟨k', v'⟩ := hd
    by_cases hk : (k' == k) = true
    · have hk' : k' = k := by simpa using hk
      subst hk'
      have hq : ¬ (k' = q) := fun he => hne he.symm
      simp [dset, dget, hq]
    · simp [dset, hk, dget, ih]

/-- The fold of `emitDocs` is the initial string followed by the joined
blocks. -/
theorem foldl_append_eq (l : List String) (s : String) :
    l.foldl (fun acc d => acc ++ d ++ "\n\n") s
      = s ++ String.join (l.map (fun d => d ++ "\n\n")) := by
  induction l generalizing s with
  | nil => simp [String.join]
  | cons a tl ih =>
    simp only [List.foldl_cons, List.map_cons, strJoin_cons, ih]
    simp [String.append_assoc]

/-- Looking a key up past a head entry with a different key skips that
entry. -/
theorem dget_head_ne {α : Type} (k q : String) (v : α) (tl : List (String × α))
    (hne : k ≠ q) : dget ((k, v) :: tl) q = dget tl q := by
  simp [dget, hne]

/-- With duplicate-free keys, looking every key up in iteration order
recovers exactly the stored values in order. -/
theorem filterMap_dget_nodup {α : Type} (d : List (String × α))
    (hnd : (dkeys d).Nodup) :
    (dkeys d).filterMap (fun q => dget d q) = d.map Prod.snd := by
  induction d with
  | nil => rfl
  | cons hd tl ih =>
    obtain ⟨k, v⟩ := hd
    have hkeys : dkeys ((k, v) :: tl) = k :: dkeys tl := rfl
    rw [hkeys] at hnd ⊢
    rw [List.nodup_cons] at hnd
    obtain ⟨hk, hnd'⟩ := hnd
    rw [List.filterMap_cons]
    have hone : dget ((k, v) :: tl) k = some v := by simp [dget]
    rw [hone]
    have htwo : (dkeys tl).filterMap (fun q => dget ((k, v) :: tl) q)
        = (dkeys tl).filterMap (fun q => dget tl q) := by
      apply List.filterMap_congr
      intro q hq
      have : k ≠ q := fun he => hk (he ▸ hq)
      exact dget_head_ne k q v tl this
    rw [htwo, ih hnd']
    rfl

/-- On success, the `derived` comprehension is the filter of the identities
dictionary by the `base` attribute. -/
theorem derivedList_eq_filter (ids : List (String × Identity))
    (base_id : String) (ds : List (String × Identity))
    (hds : derivedList ids base_id = some ds) :
    ds = ids.filter (fun p => p.2.attrs.base == some base_id) := by
  induction ids generalizing ds with
  | nil => rw [derivedList] at hds; cases hds; rfl
  | cons hd tl ih =>
    obtain ⟨k, v⟩ := hd
    rw [derivedList] at hds
    cases hb : v.attrs.base with
    | none => rw [hb] at hds; cases hds
    | some bs =>
      rw [hb] at hds
      cases hrec : derivedList tl base_id with
      | none => rw [hrec] at hds; cases hds
      | some tail =>
        rw [hrec] at hds
        cases hds
        rw [List.filter_cons]
        by_cases hbs : (bs == base_id) = true
        · simp [hb, hbs, ih tail hrec]
        · simp [hb, hbs, ih tail hrec]

mutual

/-- Whenever `gen_type_info` succeeds, its output is the specification-side
rendering. -/
theorem gti_eq_spec (it : List String) (td : TypeDoc) (u : Bool) (out : String)
    (hout : gen_type_info it td u = some out) :
    out = gen_type_info_spec it td u := by
  obtain ⟨tn, a, cs⟩ := td
  rw [gen_type_info, gen_type_info_spec] at *
  by_cases h1 : (tn == "enumeration") = true
  · simp only [h1, if_true] at hout ⊢
    cases he : a.enums with
    | none => simp only [he] at hout; cases hout
    | some es =>
      simp only [he, Option.some.injEq] at hout
      subst hout
      simp [he]
  · simp only [h1, Bool.false_eq_true, if_false] at hout ⊢
    by_cases h2 : (tn == "string") = true
    · simp only [h2, if_true] at hout ⊢
      cases hr : a.restrictions with
      | none => simp only [hr] at hout; cases hout
      | some restr =>
        simp only [hr, Option.getD_some] at hout ⊢
        cases hp : dget restr "pattern" with
        | none =>
          simp only [hp, Option.some.injEq] at hout
          subst hout
          simp [hp, String.append_empty]
        | some pat =>
          simp only [hp, Option.some.injEq] at hout
          subst hout
          simp [hp]
    · simp only [h2, Bool.false_eq_true, if_false] at hout ⊢
      by_cases h3 : it.contains tn = true
      · simp only [h3, if_true] at hout ⊢
        cases hr : a.restrictions with
        | none => simp only [hr] at hout; cases hout
        | some restr =>
          simp only [hr, Option.getD_some] at hout ⊢
          cases hp : dget restr "range" with
          | none =>
            simp only [hp, Option.some.injEq] at hout
            subst hout
            simp [hp, String.append_empty]
          | some rng =>
            simp only [hp, Option.some.injEq] at hout
            subst hout
            simp [hp]
      · simp only [h3, Bool.false_eq_true, if_false] at hout ⊢
        by_cases h4x : (tn == "identityref") = true
        · simp only [h4x, if_true] at hout ⊢
          cases hb : a.base with
          | none => simp only [hb] at hout; cases hout
          | some bse =>
            simp only [hb, Option.some.injEq] at hout
            subst hout
            simp [hb]
        · simp only [h4x, Bool.false_eq_true, if_false] at hout ⊢
          by_cases h5x : (tn == "leafref") = true
          · simp only [h5x, if_true] at hout ⊢
            cases hl : a.leafref_path with
            | none => simp only [hl] at hout; cases hout
            | some lp =>
              simp only [hl, Option.some.injEq] at hout
              subst hout
              simp [hl]
          · simp only [h5x, Bool.false_eq_true, if_false] at hout ⊢
            by_cases h6x : (tn == "union") = true
            · simp only [h6x, if_true] at hout ⊢
              cases hu : gen_type_info_list it cs with
              | none => simp only [hu] at hout; cases hout
              | some rest =>
                simp only [hu, Option.some.injEq] at hout
                subst hout
                rw [gtil_eq_spec it cs rest hu]
            · simp only [h6x, Bool.false_eq_true, if_false,
                Option.some.injEq] at hout ⊢
              subst hout
              rw [String.append_empty]

/-- Whenever the union expansion succeeds, its output is the
specification-side rendering of the child list. -/
theorem gtil_eq_spec (it : List String) (l : List TypeDoc) (out : String)
    (hout : gen_type_info_list it l = some out) :
    out = gen_type_info_spec_list it l := by
  cases l with
  | nil =>
    rw [gen_type_info_list] at hout
    cases hout
    rfl
  | cons t rest =>
    rw [gen_type_info_list] at hout
    cases ht : gen_type_info it t true with
    | none => simp only [ht] at hout; cases hout
    | some sa =>
      cases hrest : gen_type_info_list it rest with
      | none => simp only [ht, hrest] at hout; cases hout
      | some sb =>
        simp only [ht, hrest, Option.some.injEq] at hout
        subst hout
        rw [gen_type_info_spec_list, gti_eq_spec it t true sa ht,
          gtil_eq_spec it rest sb hrest]

end

/-! Claim theorems. -/

/-- C1, counterexample: `genModuleDoc` does not concatenate onto the previous
value.  On an emitter whose `moduledocs` maps `m` to `OLD`, running
`genModuleDoc` on an empty module named `m` leaves the entry equal to the new
fragment alone, not to `OLD` followed by the fragment. -/
theorem C1_counterexample :
    genModuleDoc [] ⟨[("m", "OLD")], []⟩
      ⟨"m", ⟨Attrs.empty, []⟩, [], [], []⟩ ⟨⟨false, none⟩⟩ =
      Except.ok ⟨[("m", "m\n#\n\n\n\n")], []⟩
    ∧ genModuleFragment [] ⟨"m", ⟨Attrs.empty, []⟩, [], [], []⟩ =
        some "m\n#\n\n\n\n"
    ∧ ("m\n#\n\n\n\n" : String) ≠ "OLD" ++ "m\n#\n\n\n\n" :=
  ⟨rfl, rfl, by decide⟩

/-- C1, amended: after a successful `genStatementDoc` on a statement whose
keyword is not in `path_only`, the entry under the statement's module name is
its previous value followed by the newly generated fragment; after a
successful `genModuleDoc`, the entry under `mod.module_name` is ASSIGNED the
newly generated module fragment, discarding any previous value.  In both
cases entries under every other module name are unchanged. -/
theorem C1_genStatementDoc_appends_genModuleDoc_assigns
    (it : List String) (strip_ns : String → String)
    (e : RSTEmitter) (stmt : StatementNode) (ctx ctx2 : Ctx) (lvl : Nat)
    (mod : ModuleDoc) (eS eM : RSTEmitter) (ret : Option String)
    (old frag fragM : String)
    (hskip : e.path_only.contains stmt.keyword = false)
    (hrun : genStatementDoc it strip_ns e stmt ctx lvl = Except.ok (ret, eS))
    (hold : dget e.moduledocs stmt.module_doc.module_name = some old)
    (hfrag : statementFragment it strip_ns stmt ctx = some frag)
    (hrunM : genModuleDoc it e mod ctx2 = Except.ok eM)
    (hfragM : genModuleFragment it mod = some fragM) :
    dget eS.moduledocs stmt.module_doc.module_name = some (old ++ frag)
    ∧ (∀ q, q ≠ stmt.module_doc.module_name →
        dget eS.moduledocs q = dget e.moduledocs q)
    ∧ dget eM.moduledocs mod.module_name = some fragM
    ∧ (∀ q, q ≠ mod.module_name →
        dget eM.moduledocs q = dget e.moduledocs q) := by
  have hM : eM.moduledocs = dset e.moduledocs mod.module_name fragM := by
    rw [genModuleDoc, hfragM] at hrunM
    cases hrunM
    rfl
  cases hp : stmt.attrs.path with
  | none => rw [statementFragment, hp] at hfrag; cases hfrag
  | some p =>
    rw [genStatementDoc, hp] at hrun
    simp only [hskip, Bool.false_eq_true, if_false, hfrag, hold] at hrun
    have hS : eS.moduledocs =
        dset e.moduledocs stmt.module_doc.module_name (old ++ frag) := by
      cases hrun
      rfl
    refine ⟨?_, ?_, ?_, ?_⟩
    · rw [hS, dget_dset_self]
    · intro q hq; rw [hS, dget_dset_ne _ _ _ _ hq]
    · rw [hM, dget_dset_self]
    · intro q hq; rw [hM, dget_dset_ne _ _ _ _ hq]

/-- C1, witness: the amended claim instantiated on an emitter holding text for
modules `m` and `n`, a leaf statement of `m` and an empty module `mm`. -/
theorem C1_witness :
    eW.path_only.contains stmtW.keyword = false
    ∧ genStatementDoc itW stripW eW stmtW ctxW 1 = Except.ok (none, eSW)
    ∧ dget eW.moduledocs stmtW.module_doc.module_name = some "MODTEXT"
    ∧ statementFragment itW stripW stmtW ctxW = some fragW
    ∧ genModuleDoc itW eW modW ctxW = Except.ok eMW
    ∧ genModuleFragment itW modW = some fragMW
    ∧ (dget eSW.moduledocs stmtW.module_doc.module_name =
          some ("MODTEXT" ++ fragW)
      ∧ (∀ q, q ≠ stmtW.module_doc.module_name →
          dget eSW.moduledocs q = dget eW.moduledocs q)
      ∧ dget eMW.moduledocs modW.module_name = some fragMW
      ∧ (∀ q, q ≠ modW.module_name →
          dget eMW.moduledocs q = dget eW.moduledocs q)) :=
  ⟨rfl, rfl, rfl, rfl, rfl, rfl,
    C1_genStatementDoc_appends_genModuleDoc_assigns itW stripW eW stmtW ctxW
      ctxW 1 modW eSW eMW none "MODTEXT" fragW fragMW rfl rfl rfl rfl rfl rfl⟩

/-- C2: `emitDocs` returns the `h1` of `ctx.opts.doc_title` when set (the
empty string otherwise), followed by each module's accumulated text in
`moduledocs` iteration order, each followed by a blank line. -/
theorem C2_emitDocs_concatenation (e : RSTEmitter) (ctx : Ctx)
    (sect : Option String) (hnd : (dkeys e.moduledocs).Nodup) :
    emitDocs e ctx sect = emitDocs_spec e ctx := by
  rw [emitDocs, emitDocs_spec]
  rw [filterMap_dget_nodup e.moduledocs hnd]
  rw [foldl_append_eq]
  rw [List.map_map]
  rfl

/-- C2, witness: the concatenation shape on a two-module emitter with a
document title. -/
theorem C2_witness :
    (dkeys eW.moduledocs).Nodup
    ∧ emitDocs eW ctxTitleW none = emitDocs_spec eW ctxTitleW :=
  ⟨by decide, C2_emitDocs_concatenation eW ctxTitleW none (by decide)⟩

/-- C3: the string-formatting helpers are pure functions; `h` is the content,
a newline, the symbol repeated `len(content)` times and a newline; `h1`-`h6`
are `h` at the six symbols; `b`, `i`, `c` wrap; `block` frames; `newline` is a
newline.  Purity holds by construction: each is a function of its argument
alone. -/
theorem C3_formatting_helpers (content symbol : String) :
    h content symbol =
      content ++ "\n" ++
        String.join (List.replicate content.length symbol) ++ "\n"
    ∧ h1 content = h content "#"
    ∧ h2 content = h content "*"
    ∧ h3 content = h content "="
    ∧ h4 content = h content "-"
    ∧ h5 content = h content "^"
    ∧ h6 content = h content "\""
    ∧ b content = "**" ++ content ++ "**"
    ∧ i content = "*" ++ content ++ "*"
    ∧ c content = "``" ++ content ++ "``"
    ∧ block content = "\n" ++ content ++ "\n\n"
    ∧ newline = "\n" :=
  ⟨rfl, rfl, rfl, rfl, rfl, rfl, rfl, rfl, rfl, rfl, rfl, rfl⟩

/-- C4: the derived identities emitted under a base heading are exactly the
entries of `mod.identities` whose `attrs["base"]` equals the base identity,
and the emitted block is built from that group. -/
theorem C4_identities_grouped_by_base (identities : List (String × Identity))
    (base_id : String) (bobj : Identity) (d : String)
    (ds : List (String × Identity)) (dtxt : String)
    (ha : dget identities base_id = some bobj)
    (hb : bobj.attrs.desc = some d)
    (hc : derivedList identities base_id = some ds)
    (hd2 : derivedFold ds = some dtxt) :
    ds = identities.filter (fun p => p.2.attrs.base == some base_id)
    ∧ baseIdentityBlock identities base_id =
        some (h4 ("base: " ++ i base_id) ++ block d ++ dtxt) := by
  refine ⟨derivedList_eq_filter identities base_id ds hc, ?_⟩
  simp [baseIdentityBlock, ha, hb, hc, hd2]

/-- C4, witness: a dictionary with a base identity and one derived identity;
the derived group is the singleton with matching `base`. -/
theorem C4_witness :
    dget identitiesW "BASE" = some idBaseW
    ∧ idBaseW.attrs.desc = some "base desc"
    ∧ derivedList identitiesW "BASE" = some dsW
    ∧ derivedFold dsW = some dtxtW
    ∧ (dsW = identitiesW.filter (fun p => p.2.attrs.base == some "BASE")
      ∧ baseIdentityBlock identitiesW "BASE" =
          some (h4 ("base: " ++ i "BASE") ++ block "base desc" ++ dtxtW)) :=
  ⟨rfl, rfl, rfl, rfl,
    C4_identities_grouped_by_base identitiesW "BASE" idBaseW "base desc" dsW
      dtxtW rfl rfl rfl rfl⟩

/-- C5: the emitter's only mutable state is `moduledocs`: successful
`genModuleDoc` and `genStatementDoc` calls leave `path_only` (the only other
attribute) unchanged, and `emitDocs` leaves the whole emitter state
unchanged. -/
theorem C5_state_frame (it : List String) (strip_ns : String → String)
    (e e' eS : RSTEmitter) (mod : ModuleDoc) (stmt : StatementNode)
    (ctx1 ctx2 ctx3 : Ctx) (lvl : Nat) (sect : Option String)
    (r : Option String)
    (hM : genModuleDoc it e mod ctx1 = Except.ok e')
    (hS : genStatementDoc it strip_ns e stmt ctx2 lvl = Except.ok (r, eS)) :
    e'.path_only = e.path_only ∧ eS.path_only = e.path_only
    ∧ emitDocsFull e ctx3 sect = (emitDocs e ctx3 sect, e) := by
  refine ⟨?_, ?_, rfl⟩
  · rw [genModuleDoc] at hM
    cases hfr : genModuleFragment it mod with
    | none => rw [hfr] at hM; cases hM
    | some s => rw [hfr] at hM; cases hM; rfl
  · rw [genStatementDoc] at hS
    cases hp : stmt.attrs.path with
    | none => rw [hp] at hS; cases hS
    | some p =>
      rw [hp] at hS
      by_cases hsk : e.path_only.contains stmt.keyword
      · simp only [hsk, if_true] at hS
        cases hS
        rfl
      · simp only [hsk, Bool.false_eq_true, if_false] at hS
        cases hfr : statementFragment it strip_ns stmt ctx2 with
        | none => rw [hfr] at hS; cases hS
        | some s =>
          rw [hfr] at hS
          cases hold : dget e.moduledocs stmt.module_doc.module_name with
          | none => rw [hold] at hS; cases hS
          | some old => rw [hold] at hS; cases hS; rfl

/-- C5, witness: the frame property at a successful module and statement
emission. -/
theorem C5_witness :
    genModuleDoc itW eW modW ctxW = Except.ok eMW
    ∧ genStatementDoc itW stripW eW stmtW ctxW 1 = Except.ok (none, eSW)
    ∧ (eMW.path_only = eW.path_only ∧ eSW.path_only = eW.path_only
      ∧ emitDocsFull eW ctxW none = (emitDocs eW ctxW none, eW)) :=
  ⟨rfl, rfl,
    C5_state_frame itW stripW eW eMW eSW modW stmtW ctxW ctxW ctxW 1 none none
      rfl rfl⟩

/-- C6: the tree-walk methods only read the pre-built schema tree: the module,
statement and type-document objects handed back by the mutation-tracking
variants are the input objects themselves. -/
theorem C6_tree_readonly (it : List String) (strip_ns : String → String)
    (e e' eS : RSTEmitter) (mod mod' : ModuleDoc) (stmt stmt' : StatementNode)
    (ctx1 ctx2 : Ctx) (lvl : Nat) (u : Bool) (td td' : TypeDoc)
    (r : Option String) (s : String)
    (hM : genModuleDocWithTree it e mod ctx1 = Except.ok (e', mod'))
    (hS : genStatementDocWithTree it strip_ns e stmt ctx2 lvl =
      Except.ok (r, eS, stmt'))
    (hT : gen_type_info_withTree it td u = some (s, td')) :
    mod' = mod ∧ stmt' = stmt ∧ td' = td := by
  refine ⟨?_, ?_, ?_⟩
  · rw [genModuleDocWithTree] at hM
    cases hgm : genModuleDoc it e mod ctx1 with
    | error dd => rw [hgm] at hM; cases hM
    | ok e2 => rw [hgm] at hM; cases hM; rfl
  · rw [genStatementDocWithTree] at hS
    cases hgs : genStatementDoc it strip_ns e stmt ctx2 lvl with
    | error dd => rw [hgs] at hS; cases hS
    | ok pr => rw [hgs] at hS; obtain ⟨r2, e2⟩ := pr; cases hS; rfl
  · rw [gen_type_info_withTree] at hT
    cases hgt : gen_type_info it td u with
    | none => rw [hgt] at hT; cases hT
    | some s2 => rw [hgt] at hT; cases hT; rfl

/-- C6, witness: the tree objects are returned unchanged on a concrete module,
statement and type document. -/
theorem C6_witness :
    genModuleDocWithTree itW eW modW ctxW = Except.ok (eMW, modW)
    ∧ genStatementDocWithTree itW stripW eW stmtW ctxW 1 =
        Except.ok (none, eSW, stmtW)
    ∧ gen_type_info_withTree itW tdBoolW false = some (sBoolW, tdBoolW)
    ∧ (modW = modW ∧ stmtW = stmtW ∧ tdBoolW = tdBoolW) :=
  ⟨rfl, rfl, rfl,
    C6_tree_readonly itW stripW eW eMW eSW modW modW stmtW stmtW ctxW ctxW 1
      false tdBoolW tdBoolW none sBoolW rfl rfl rfl⟩

/-- C7: whenever `gen_type_info` returns a document, that document is a block
stating the type name followed by the type-specific restriction lines of the
claim: enum blocks for enumerations, the pattern for strings, the range for
integer types, the base for identityrefs, the path reference for leafrefs, the
recursive union expansion with union-list prefixes, and nothing further for
any other type name. -/
theorem C7_gen_type_info_cases (it : List String) (td : TypeDoc) (u : Bool)
    (out : String) (hout : gen_type_info it td u = some out) :
    out = gen_type_info_spec it td u :=
  gti_eq_spec it td u out hout

/-- C7, witness: the case analysis at a concrete enumeration type. -/
theorem C7_witness :
    gen_type_info itW tdEnumW false = some outEnumW
    ∧ outEnumW = gen_type_info_spec itW tdEnumW false :=
  ⟨rfl, C7_gen_type_info_cases itW tdEnumW false outEnumW rfl⟩

/-- C8: for a statement whose keyword is in `path_only`, `genStatementDoc`
returns only the `h4` of the path string, leaves the emitter state untouched,
and consequently such nodes contribute nothing to the document later returned
by `emitDocs`. -/
theorem C8_path_only_skip (it : List String) (strip_ns : String → String)
    (e : RSTEmitter) (stmt : StatementNode) (ctx ctx2 : Ctx) (lvl : Nat)
    (sect : Option String) (p : String)
    (hskip : e.path_only.contains stmt.keyword = true)
    (hp : stmt.attrs.path = some p) :
    genStatementDoc it strip_ns e stmt ctx lvl =
      Except.ok
        (some (h4 (if ctx.opts.strip_namespace then strip_ns p else p)), e)
    ∧ (∀ (r : Option String) (eS : RSTEmitter),
        genStatementDoc it strip_ns e stmt ctx lvl = Except.ok (r, eS) →
        emitDocs eS ctx2 sect = emitDocs e ctx2 sect) := by
  have h1 : genStatementDoc it strip_ns e stmt ctx lvl =
      Except.ok
        (some (h4 (if ctx.opts.strip_namespace then strip_ns p else p)),
          e) := by
    rw [genStatementDoc, hp]
    simp only [hskip, if_true]
  refine ⟨h1, ?_⟩
  intro r eS hrun
  rw [h1] at hrun
  cases hrun
  rfl

/-- C8, witness: the skip behaviour at a concrete `rpc` statement. -/
theorem C8_witness :
    eW.path_only.contains stmtSkipW.keyword = true
    ∧ stmtSkipW.attrs.path = some "/top/a"
    ∧ (genStatementDoc itW stripW eW stmtSkipW ctxW 1 =
        Except.ok
          (some (h4 (if ctxW.opts.strip_namespace then stripW "/top/a"
            else "/top/a")), eW)
      ∧ (∀ (r : Option String) (eS : RSTEmitter),
          genStatementDoc itW stripW eW stmtSkipW ctxW 1 = Except.ok (r, eS) →
          emitDocs eS ctxW none = emitDocs eW ctxW none)) :=
  ⟨rfl, rfl,
    C8_path_only_skip itW stripW eW stmtSkipW ctxW ctxW 1 none "/top/a"
      rfl rfl⟩

/-- C9: `emitDocs` never consults its `section` argument: on the same emitter
state and context, any two section values give the same output. -/
theorem C9_emitDocs_ignores_section (e : RSTEmitter) (ctx : Ctx)
    (sect1 sect2 : Option String) :
    emitDocs e ctx sect1 = emitDocs e ctx sect2 := rfl

/-- C10: for a non-skipped statement whose module name has no entry in
`moduledocs`, the final in-place append raises `KeyError`: the call errors
with `moduledocs` unchanged (the error payload is the input mapping) and does
not succeed. -/
theorem C10_missing_module_keyerror (it : List String)
    (strip_ns : String → String) (e : RSTEmitter) (stmt : StatementNode)
    (ctx : Ctx) (lvl : Nat) (frag : String)
    (hskip : e.path_only.contains stmt.keyword = false)
    (hfrag : statementFragment it strip_ns stmt ctx = some frag)
    (hmiss : dget e.moduledocs stmt.module_doc.module_name = none) :
    genStatementDoc it strip_ns e stmt ctx lvl = Except.error e.moduledocs
    ∧ ¬ ∃ (r : Option String) (eS : RSTEmitter),
        genStatementDoc it strip_ns e stmt ctx lvl = Except.ok (r, eS) := by
  have h1 : genStatementDoc it strip_ns e stmt ctx lvl =
      Except.error e.moduledocs := by
    cases hp : stmt.attrs.path with
    | none => rw [statementFragment, hp] at hfrag; cases hfrag
    | some p =>
      rw [genStatementDoc, hp]
      simp only [hskip, Bool.false_eq_true, if_false, hfrag, hmiss]
  refine ⟨h1, ?_⟩
  rintro ⟨r, eS, hrun⟩
  rw [h1] at hrun
  cases hrun

/-- C10, witness: the `KeyError` at a leaf statement of module `m` on an
emitter with no entry for `m`. -/
theorem C10_witness :
    eNoKeyW.path_only.contains stmtW.keyword = false
    ∧ statementFragment itW stripW stmtW ctxW = some fragW
    ∧ dget eNoKeyW.moduledocs stmtW.module_doc.module_name = none
    ∧ (genStatementDoc itW stripW eNoKeyW stmtW ctxW 1 =
        Except.error eNoKeyW.moduledocs
      ∧ ¬ ∃ (r : Option String) (eS : RSTEmitter),
          genStatementDoc itW stripW eNoKeyW stmtW ctxW 1 =
            Except.ok (r, eS)) :=
  ⟨rfl, rfl, rfl,
    C10_missing_module_keyerror itW stripW eNoKeyW stmtW ctxW 1 fragW
      rfl rfl rfl⟩

end RstEmitterModel
